import Mathlib

/-! The blog service of `blog/server/server.go`.

A shallow embedding of the five RPC handlers (`CreateBlog`, `ReadBlog`,
`UpdateBlog`, `DeleteBlog`, `ListBlog`) together with the parts of their
collaborators that the handlers observe: the identifier codec of the
document-store driver, a sequential model of the collection, and the
server-side stream of `ListBlog`.

Strings are Lean `String`s (sequences of Unicode scalar values, i.e. exactly
the valid UTF-8 strings a protobuf `string` field can carry); Go's `len(s)`
is `String.utf8ByteSize`.

The store is sequential: each store call takes the collection and returns the
collection afterwards.  A store-level failure (connection, timeout, write,
cursor) is an input of the call (`fault`); a failed call leaves the
collection as it was.  `none` stands for a call the store carries out.
-/

namespace BlogServer

/-! ## Identifier codec (`primitive.ObjectID`) -/

/-- The driver's `primitive.ObjectID`, a `[12]byte`. -/
structure ObjectID where
  bytes : List (Fin 256)
  size : bytes.length = 12
deriving DecidableEq

/-- The driver's `primitive.NilObjectID`, the zero value of `ObjectID`. -/
def NilObjectID : ObjectID := ⟨List.replicate 12 0, rfl⟩

/-- Errors of the document-store driver, as far as the handlers can meet them. -/
inductive StoreFailure where
  | connection
  | timeout
  | writeFailure
  | cursorFailure
deriving DecidableEq, Repr

/-- Error values returned by the driver and by the hex codec. -/
inductive MongoErr where
  /-- The error `primitive.ErrInvalidHex` and the errors of `encoding/hex`. -/
  | invalidHex
  /-- The error `mongo.ErrNoDocuments`: the filter of `FindOne` matched nothing. -/
  | noDocuments
  /-- A stored document does not unmarshal into the requested struct. -/
  | decode
  /-- Write error: a document with the same `_id` already exists. -/
  | duplicateKey
  /-- Write error: a replacement would change the immutable `_id`. -/
  | immutableID
  /-- The store itself failed (connection, timeout, write, cursor). -/
  | store (f : StoreFailure)
deriving DecidableEq, Repr

/-- The alphabet of `encoding/hex`: `"0123456789abcdef"`. -/
def hextable : List Char := "0123456789abcdef".toList

/-- One step of `hex.Encode`: `hextable[v>>4]`, `hextable[v&0x0f]`. -/
def encodeByte (v : Fin 256) : List Char :=
  [hextable.getD (v.val / 16) '0', hextable.getD (v.val % 16) '0']

/-- The method `ObjectID.Hex`: the 24-character lower-case hex form of the identifier. -/
def ObjectID.Hex (id : ObjectID) : String :=
  String.mk (id.bytes.flatMap encodeByte)

/-- The function `fromHexChar` of `encoding/hex`: the value of one hex digit, either case. -/
def fromHexChar (c : Char) : Option Nat :=
  let n := c.toNat
  if 48 ≤ n ∧ n ≤ 57 then some (n - 48)
  else if 97 ≤ n ∧ n ≤ 102 then some (n - 97 + 10)
  else if 65 ≤ n ∧ n ≤ 70 then some (n - 65 + 10)
  else none

/-- The function `hex.Decode`: two digits per byte, `(a << 4) | b`; an invalid digit or a
dangling last digit is an error.  A character outside ASCII contributes only bytes
`≥ 0x80`, none of which is a hex digit, so it is rejected like any other non-digit. -/
def hexDecode : List Char → Except MongoErr (List (Fin 256))
  | [] => .ok []
  | [_] => .error .invalidHex
  | a :: b :: rest =>
    match fromHexChar a, fromHexChar b with
    | some x, some y =>
      match hexDecode rest with
      | .ok bs => .ok (Fin.ofNat (x * 16 + y) :: bs)
      | .error e => .error e
    | _, _ => .error .invalidHex

/-- The function `primitive.ObjectIDFromHex`: rejects strings whose byte length is not 24,
then hex-decodes into the twelve bytes of the identifier. -/
def ObjectIDFromHex (s : String) : Except MongoErr ObjectID :=
  if s.utf8ByteSize ≠ 24 then .error .invalidHex
  else
    match hexDecode s.data with
    | .error e => .error e
    | .ok b => if h : b.length = 12 then .ok ⟨b, h⟩ else .error .invalidHex

/-- A hexadecimal character, in the sense of the specification. -/
def IsHexChar (c : Char) : Prop := c ∈ "0123456789abcdefABCDEF".toList

instance (c : Char) : Decidable (IsHexChar c) := by
  unfold IsHexChar; infer_instance

/-- A well-formed identifier string in the sense of the specification: exactly 24
characters, all of them hexadecimal. -/
def WellFormedId (s : String) : Prop := s.length = 24 ∧ ∀ c ∈ s.data, IsHexChar c

instance (s : String) : Decidable (WellFormedId s) := by
  unfold WellFormedId; infer_instance

deriving instance DecidableEq for Except

/-! ## Messages and records -/

/-- The struct `blogItem`, the persisted record. -/
structure blogItem where
  ID : ObjectID
  AuthorID : String
  Content : String
  Title : String
deriving DecidableEq

/-- Modelled from the spec: the generated message `blogpb.Blog` (package `blogpb` is not
among the sources); four string fields `id`, `authorId`, `content`, `title`. -/
structure Blog where
  Id : String
  AuthorId : String
  Content : String
  Title : String
deriving DecidableEq

/-- Modelled from the spec: the generated getter `(*Blog).GetId`; a nil message yields the
zero value. -/
def GetId : Option Blog → String
  | some b => b.Id
  | none => ""

/-- Modelled from the spec: the generated getter `(*Blog).GetAuthorId`. -/
def GetAuthorId : Option Blog → String
  | some b => b.AuthorId
  | none => ""

/-- Modelled from the spec: the generated getter `(*Blog).GetContent`. -/
def GetContent : Option Blog → String
  | some b => b.Content
  | none => ""

/-- Modelled from the spec: the generated getter `(*Blog).GetTitle`. -/
def GetTitle : Option Blog → String
  | some b => b.Title
  | none => ""

/-- Modelled from the spec: `blogpb.CreateBlogRequest`, carrying an optional `Blog`. -/
structure CreateBlogRequest where
  blog : Option Blog
deriving DecidableEq

/-- Modelled from the spec: `blogpb.CreateBlogResponse`. -/
structure CreateBlogResponse where
  blog : Blog
deriving DecidableEq

/-- Modelled from the spec: `blogpb.ReadBlogRequest`, carrying the identifier string. -/
structure ReadBlogRequest where
  blogId : String
deriving DecidableEq

/-- Modelled from the spec: `blogpb.ReadBlogResponse`. -/
structure ReadBlogResponse where
  blog : Blog
deriving DecidableEq

/-- Modelled from the spec: `blogpb.UpdateBlogRequest`, carrying an optional `Blog`. -/
structure UpdateBlogRequest where
  blog : Option Blog
deriving DecidableEq

/-- Modelled from the spec: `blogpb.UpdateBlogResponse`. -/
structure UpdateBlogResponse where
  blog : Blog
deriving DecidableEq

/-- Modelled from the spec: `blogpb.DeleteBlogRequest`, carrying the identifier string. -/
structure DeleteBlogRequest where
  blogId : String
deriving DecidableEq

/-- Modelled from the spec: `blogpb.DeleteBlogResponse`, carrying the deleted identifier. -/
structure DeleteBlogResponse where
  blogId : String
deriving DecidableEq

/-- Modelled from the spec: `blogpb.ListBlogResponse`, one streamed message. -/
structure ListBlogResponse where
  blog : Blog
deriving DecidableEq

/-- The RPC status codes the handlers use (`codes.InvalidArgument`, `codes.NotFound`,
`codes.Internal`).  Of a `status.Errorf(code, msg)` value only the code is kept. -/
inductive Code where
  | InvalidArgument
  | NotFound
  | Internal
deriving DecidableEq, Repr

/-- The function `dataToBlog`: the wire form of a record. -/
def dataToBlog (data : blogItem) : Blog :=
  { Id := data.ID.Hex
    AuthorId := data.AuthorID
    Content := data.Content
    Title := data.Title }

/-! ## The collection (`*mongo.Collection`) -/

/-- A stored document.  Every document has an `_id`; it either unmarshals into a
`blogItem` or (its fields having other types) does not. -/
inductive Document where
  | blog (item : blogItem)
  | foreign (id : ObjectID)
deriving DecidableEq

/-- The `_id` of a stored document. -/
def Document.id : Document → ObjectID
  | .blog item => item.ID
  | .foreign id => id

/-- Unmarshalling a stored document into a `blogItem`. -/
def Document.Decode : Document → Except MongoErr blogItem
  | .blog item => .ok item
  | .foreign _ => .error .decode

/-- The contents of the collection, in the store's natural (insertion) order. -/
abbrev Collection := List Document

/-- The store's primary-key invariant: no two documents share an `_id`. -/
def UniqueIds (c : Collection) : Prop := (c.map Document.id).Nodup

instance (c : Collection) : Decidable (UniqueIds c) := by
  unfold UniqueIds; infer_instance

/-- A call issued to the collection. -/
inductive StoreOp where
  | InsertOne (data : blogItem)
  | FindOne (filter : ObjectID)
  | ReplaceOne (filter : ObjectID) (data : blogItem)
  | DeleteOne (filter : ObjectID)
  | Find
deriving DecidableEq

/-- The dynamic type of `InsertOneResult.InsertedID` (an `interface{}`). -/
inductive InsertedID where
  | objectID (oid : ObjectID)
  | other
deriving DecidableEq

/-- The driver's `mongo.InsertOneResult`. -/
structure InsertOneResult where
  InsertedID : InsertedID
deriving DecidableEq

/-- The method `Collection.InsertOne`.  `fault` is a store-level failure injected into this
call, `newID` the identifier the driver generates when the record's `_id` is omitted
(`omitempty` on a zero `ID`).  A clash with an existing `_id` is a write error. -/
def InsertOne (fault : Option StoreFailure) (newID : ObjectID) (c : Collection)
    (data : blogItem) : Except MongoErr InsertOneResult × Collection :=
  match fault with
  | some f => (.error (.store f), c)
  | none =>
    let id := if data.ID = NilObjectID then newID else data.ID
    if c.any (fun d => d.id = id) then (.error .duplicateKey, c)
    else (.ok ⟨.objectID id⟩, c ++ [.blog { data with ID := id }])

/-- The driver's `mongo.SingleResult`: the pending outcome of `FindOne`. -/
structure SingleResult where
  err : Option MongoErr
  doc : Option Document
deriving DecidableEq

/-- The method `Collection.FindOne` with the filter `bson.M` mapping `_id` to `oid`. -/
def FindOne (fault : Option StoreFailure) (c : Collection) (oid : ObjectID) : SingleResult :=
  match fault with
  | some f => ⟨some (.store f), none⟩
  | none =>
    match c.find? (fun d => d.id = oid) with
    | none => ⟨some .noDocuments, none⟩
    | some d => ⟨none, some d⟩

/-- The method `SingleResult.Decode`: the error of the query if there is one, else the
unmarshalled document. -/
def SingleResult.Decode (r : SingleResult) : Except MongoErr blogItem :=
  match r.err with
  | some e => .error e
  | none =>
    match r.doc with
    | some d => d.Decode
    | none => .error .noDocuments

/-- Replace the first document whose `_id` is `oid`. -/
def replaceFirst (oid : ObjectID) (new : Document) : Collection → Collection
  | [] => []
  | d :: ds => if d.id = oid then new :: ds else d :: replaceFirst oid new ds

/-- The driver's `mongo.UpdateResult`. -/
structure UpdateResult where
  MatchedCount : Nat
deriving DecidableEq

/-- The method `Collection.ReplaceOne` with the filter on `_id` (no upsert).  The matched
document keeps its `_id`; a replacement carrying a different non-zero `_id` is a write
error. -/
def ReplaceOne (fault : Option StoreFailure) (c : Collection) (oid : ObjectID)
    (data : blogItem) : Except MongoErr UpdateResult × Collection :=
  match fault with
  | some f => (.error (.store f), c)
  | none =>
    match c.find? (fun d => d.id = oid) with
    | none => (.ok ⟨0⟩, c)
    | some _ =>
      if data.ID ≠ NilObjectID ∧ data.ID ≠ oid then (.error .immutableID, c)
      else (.ok ⟨1⟩, replaceFirst oid (.blog { data with ID := oid }) c)

/-- The driver's `mongo.DeleteResult`. -/
structure DeleteResult where
  DeletedCount : Nat
deriving DecidableEq

/-- The method `Collection.DeleteOne` with the filter on `_id`: removes the first match
and reports how many documents were removed. -/
def DeleteOne (fault : Option StoreFailure) (c : Collection) (oid : ObjectID) :
    Except MongoErr DeleteResult × Collection :=
  match fault with
  | some f => (.error (.store f), c)
  | none =>
    let c' := c.eraseP (fun d => d.id = oid)
    (.ok ⟨c.length - c'.length⟩, c')

/-- How the query of `ListBlog` can fail: not at all, when it is issued, or while the
cursor is being iterated, after it has yielded `n` documents. -/
inductive CursorFault where
  | none
  | query (f : StoreFailure)
  | iteration (n : Nat) (f : StoreFailure)
deriving DecidableEq

/-- The driver's `mongo.Cursor`: the documents `Next` will yield, in order, and the value
of `Err()` once `Next` has returned false. -/
structure Cursor where
  docs : List Document
  err : Option MongoErr
deriving DecidableEq

/-- The method `Collection.Find` with the empty filter. -/
def Find (fault : CursorFault) (c : Collection) : Except MongoErr Cursor :=
  match fault with
  | .none => .ok ⟨c, none⟩
  | .query f => .error (.store f)
  | .iteration n f => .ok ⟨c.take n, some (.store f)⟩

/-! ## The server side of the `ListBlog` stream -/

/-- The error of a failed write to the stream. -/
inductive TransportErr where
  | closed
deriving DecidableEq, Repr

/-- Modelled from the spec: `blogpb.BlogService_ListBlogServer`, the sink of `ListBlog`.
`calls` records every message handed to `Send`, `sent` those the transport accepted;
`credit` is the number of writes the transport still accepts (`none`: it never fails). -/
structure ListBlogServer where
  calls : List ListBlogResponse
  sent : List ListBlogResponse
  credit : Option Nat
deriving DecidableEq

/-- Modelled from the spec: the method `Send` of the stream; it fails, delivering nothing,
once the transport accepts no more writes. -/
def ListBlogServer.Send (s : ListBlogServer) (m : ListBlogResponse) :
    Option TransportErr × ListBlogServer :=
  match s.credit with
  | some 0 => (some .closed, { s with calls := s.calls ++ [m] })
  | some (n + 1) => (none, { calls := s.calls ++ [m], sent := s.sent ++ [m], credit := some n })
  | none => (none, { s with calls := s.calls ++ [m], sent := s.sent ++ [m] })

/-! ## The handlers -/

/-- What a handler call leaves behind: its result (a response or a status code), the
collection afterwards, and the calls it issued to the collection, in order. -/
structure Outcome (α : Type) where
  result : Except Code α
  collection : Collection
  ops : List StoreOp

/-- The handler `CreateBlog`. -/
def CreateBlog (fault : Option StoreFailure) (newID : ObjectID) (collection : Collection)
    (req : CreateBlogRequest) : Outcome CreateBlogResponse :=
  let blog := req.blog
  let data : blogItem :=
    { ID := NilObjectID
      AuthorID := GetAuthorId blog
      Title := GetTitle blog
      Content := GetContent blog }
  match InsertOne fault newID collection data with
  | (.error _, c) => ⟨.error .Internal, c, [.InsertOne data]⟩
  | (.ok result, c) =>
    match result.InsertedID with
    | .other => ⟨.error .Internal, c, [.InsertOne data]⟩
    | .objectID oid =>
      ⟨.ok ⟨{ AuthorId := GetAuthorId blog
              Title := GetTitle blog
              Content := GetContent blog
              Id := oid.Hex }⟩, c, [.InsertOne data]⟩

/-- The handler `ReadBlog`. -/
def ReadBlog (fault : Option StoreFailure) (collection : Collection)
    (req : ReadBlogRequest) : Outcome ReadBlogResponse :=
  let blogID := req.blogId
  match ObjectIDFromHex blogID with
  | .error _ => ⟨.error .InvalidArgument, collection, []⟩
  | .ok oid =>
    let result := FindOne fault collection oid
    match result.Decode with
    | .error _ => ⟨.error .NotFound, collection, [.FindOne oid]⟩
    | .ok data => ⟨.ok ⟨dataToBlog data⟩, collection, [.FindOne oid]⟩

/-- The handler `UpdateBlog`; `findFault` and `replaceFault` are the failures injected into
its two store calls. -/
def UpdateBlog (findFault replaceFault : Option StoreFailure) (collection : Collection)
    (req : UpdateBlogRequest) : Outcome UpdateBlogResponse :=
  let blog := req.blog
  match ObjectIDFromHex (GetId blog) with
  | .error _ => ⟨.error .InvalidArgument, collection, []⟩
  | .ok oid =>
    let result := FindOne findFault collection oid
    match result.Decode with
    | .error _ => ⟨.error .NotFound, collection, [.FindOne oid]⟩
    | .ok found =>
      let data : blogItem :=
        { found with
          AuthorID := GetAuthorId blog
          Content := GetContent blog
          Title := GetTitle blog }
      match ReplaceOne replaceFault collection oid data with
      | (.error _, c) => ⟨.error .Internal, c, [.FindOne oid, .ReplaceOne oid data]⟩
      | (.ok _, c) => ⟨.ok ⟨dataToBlog data⟩, c, [.FindOne oid, .ReplaceOne oid data]⟩

/-- The handler `DeleteBlog`. -/
def DeleteBlog (fault : Option StoreFailure) (collection : Collection)
    (req : DeleteBlogRequest) : Outcome DeleteBlogResponse :=
  match ObjectIDFromHex req.blogId with
  | .error _ => ⟨.error .InvalidArgument, collection, []⟩
  | .ok oid =>
    match DeleteOne fault collection oid with
    | (.error _, c) => ⟨.error .Internal, c, [.DeleteOne oid]⟩
    | (.ok res, c) =>
      if res.DeletedCount = 0 then ⟨.error .NotFound, c, [.DeleteOne oid]⟩
      else ⟨.ok ⟨req.blogId⟩, c, [.DeleteOne oid]⟩

/-- The loop of `ListBlog` over the documents the cursor yields: a document that does not
decode ends the call with `Internal`; otherwise its wire form is handed to `Send`, whose
result is discarded.  `none` means the loop ran to the end of the cursor. -/
def listLoop : List Document → ListBlogServer → Option Code × ListBlogServer
  | [], stream => (none, stream)
  | d :: rest, stream =>
    match d.Decode with
    | .error _ => (some .Internal, stream)
    | .ok data =>
      let (_, stream') := stream.Send ⟨dataToBlog data⟩
      listLoop rest stream'

/-- The handler `ListBlog`: the result, the collection and store calls as for the other
handlers, and the stream afterwards. -/
def ListBlog (fault : CursorFault) (collection : Collection) (stream : ListBlogServer) :
    Outcome Unit × ListBlogServer :=
  match Find fault collection with
  | .error _ => (⟨.error .Internal, collection, [.Find]⟩, stream)
  | .ok cur =>
    match listLoop cur.docs stream with
    | (some code, stream') => (⟨.error code, collection, [.Find]⟩, stream')
    | (none, stream') =>
      match cur.err with
      | some _ => (⟨.error .Internal, collection, [.Find]⟩, stream')
      | none => (⟨.ok (), collection, [.Find]⟩, stream')

/-! ## Vocabulary of the statements -/

/-- The record an update request asks for in place of `found`: the identifier of `found`,
the other three fields from the request. -/
def updated (found : blogItem) (req : UpdateBlogRequest) : blogItem :=
  { ID := found.ID
    AuthorID := GetAuthorId req.blog
    Content := GetContent req.blog
    Title := GetTitle req.blog }

/-- The stream message carrying the wire form of a record. -/
def wire (data : blogItem) : ListBlogResponse := ⟨dataToBlog data⟩

/-- The stream after `Send` has been called with the wire form of each record in turn,
whatever each call returned. -/
def sendAll : List blogItem → ListBlogServer → ListBlogServer
  | [], stream => stream
  | data :: rest, stream => sendAll rest (stream.Send (wire data)).2

/-! ## Sample data -/

/-- A sample identifier: `5f` followed by ten zero bytes and the byte `last`. -/
def sampleId (last : Fin 256) : ObjectID :=
  ⟨[0x5f, 0, 0, 0, 0, 0, 0, 0, 0, 0, 0, last], rfl⟩

/-- A sample record with the identifier `sampleId last`. -/
def sampleItem (last : Fin 256) : blogItem :=
  { ID := sampleId last, AuthorID := "a1", Content := "C", Title := "T" }

/-- A sample collection: two blog records with a document of another shape in between. -/
def sampleCollection : Collection :=
  [.blog (sampleItem 1), .foreign (sampleId 2), .blog (sampleItem 3)]

/-! ## Facts about the identifier codec -/

theorem fromHexChar_hextable (n : Nat) (h : n < 16) :
    fromHexChar (hextable.getD n '0') = some n := by
  interval_cases n <;> decide

theorem isHexChar_hextable (n : Nat) (h : n < 16) : IsHexChar (hextable.getD n '0') := by
  interval_cases n <;> decide

theorem isHexChar_cases {c : Char} (h : IsHexChar c) :
    c.utf8Size = 1 ∧ (fromHexChar c).isSome = true := by
  unfold IsHexChar at h
  simp only [String.toList, List.mem_cons, List.mem_singleton, List.not_mem_nil, or_false] at h
  rcases h with h | h | h | h | h | h | h | h | h | h | h | h | h | h | h | h | h | h | h | h | h | h <;>
    subst h <;> decide

theorem isHexChar_of_fromHexChar {c : Char} {x : Nat} (h : fromHexChar c = some x) :
    IsHexChar c := by
  have hc : c = Char.ofNat c.toNat := (Char.ofNat_toNat c).symm
  unfold fromHexChar at h
  simp only at h
  split at h
  · rename_i h1
    obtain ⟨h2, h3⟩ := h1
    rw [hc]
    interval_cases c.toNat <;> decide
  · split at h
    · rename_i h1
      obtain ⟨h2, h3⟩ := h1
      rw [hc]
      interval_cases c.toNat <;> decide
    · split at h
      · rename_i h1
        obtain ⟨h2, h3⟩ := h1
        rw [hc]
        interval_cases c.toNat <;> decide
      · cases h

theorem hexDecode_ok_inv : ∀ (l : List Char) (b : List (Fin 256)),
    hexDecode l = .ok b → (∀ c ∈ l, IsHexChar c) ∧ l.length = 2 * b.length
  | [], b, h => by
    simp only [hexDecode, Except.ok.injEq] at h
    subst h
    simp
  | [_], b, h => by simp [hexDecode] at h
  | x :: y :: rest, b, h => by
    unfold hexDecode at h
    split at h
    · rename_i vx vy hx hy
      split at h
      · rename_i bs hbs
        simp only [Except.ok.injEq] at h
        subst h
        obtain ⟨ih1, ih2⟩ := hexDecode_ok_inv rest bs hbs
        refine ⟨?_, ?_⟩
        · intro c hc
          simp only [List.mem_cons] at hc
          rcases hc with rfl | rfl | hc
          · exact isHexChar_of_fromHexChar hx
          · exact isHexChar_of_fromHexChar hy
          · exact ih1 c hc
        · simp only [List.length_cons, ih2]
          omega
      · cases h
    · cases h

theorem hexDecode_of_hex : ∀ (l : List Char) (n : Nat),
    (∀ c ∈ l, IsHexChar c) → l.length = 2 * n → ∃ b, hexDecode l = .ok b ∧ b.length = n
  | [], n, _, hn => ⟨[], by simp [hexDecode], by simp only [List.length_nil] at hn ⊢; omega⟩
  | [_], n, _, hn => by simp at hn; omega
  | x :: y :: rest, n, hall, hn => by
    have hx : IsHexChar x := hall x (by simp)
    have hy : IsHexChar y := hall y (by simp)
    obtain ⟨vx, hvx⟩ := Option.isSome_iff_exists.mp (isHexChar_cases hx).2
    obtain ⟨vy, hvy⟩ := Option.isSome_iff_exists.mp (isHexChar_cases hy).2
    have hrest : ∀ c ∈ rest, IsHexChar c := fun c hc => hall c (by simp [hc])
    have hlen : rest.length = 2 * (n - 1) := by simp at hn; omega
    obtain ⟨bs, hbs, hbl⟩ := hexDecode_of_hex rest (n - 1) hrest hlen
    refine ⟨Fin.ofNat (vx * 16 + vy) :: bs, ?_, ?_⟩
    · unfold hexDecode
      simp [hvx, hvy, hbs]
    · simp at hn
      simp [hbl]
      omega

theorem utf8ByteSize_go_of_hex : ∀ (l : List Char),
    (∀ c ∈ l, IsHexChar c) → String.utf8ByteSize.go l = l.length
  | [], _ => rfl
  | c :: cs, h => by
    have hc := (isHexChar_cases (h c (by simp))).1
    have ih := utf8ByteSize_go_of_hex cs (fun d hd => h d (by simp [hd]))
    show String.utf8ByteSize.go cs + c.utf8Size = cs.length + 1
    rw [ih, hc]

theorem utf8ByteSize_of_hex (s : String) (h : ∀ c ∈ s.data, IsHexChar c) :
    s.utf8ByteSize = s.length := by
  cases s with
  | mk l => exact utf8ByteSize_go_of_hex l h

/-- The codec accepts exactly the well-formed identifier strings. -/
theorem ObjectIDFromHex_ok_iff (s : String) :
    (∃ oid, ObjectIDFromHex s = .ok oid) ↔ WellFormedId s := by
  constructor
  · rintro ⟨oid, h⟩
    unfold ObjectIDFromHex at h
    split at h
    · cases h
    · rename_i hsize
      split at h
      · cases h
      · rename_i b hb
        split at h
        · rename_i hlen
          obtain ⟨h1, h2⟩ := hexDecode_ok_inv _ _ hb
          exact ⟨by simp only [String.length, h2, hlen], h1⟩
        · cases h
  · rintro ⟨hlen, hall⟩
    have hsize : s.utf8ByteSize = 24 := by rw [utf8ByteSize_of_hex s hall, hlen]
    obtain ⟨b, hb, hbl⟩ := hexDecode_of_hex s.data 12 hall (by
      have h24 := hlen
      simp only [String.length] at h24
      omega)
    refine ⟨⟨b, hbl⟩, ?_⟩
    unfold ObjectIDFromHex
    simp only [hsize, hb, ne_eq, not_true_eq_false, if_false]
    rw [dif_pos hbl]

theorem ObjectIDFromHex_error_of_malformed (s : String) (h : ¬ WellFormedId s) :
    ∃ e, ObjectIDFromHex s = .error e := by
  cases hr : ObjectIDFromHex s with
  | error e => exact ⟨e, rfl⟩
  | ok oid => exact absurd ((ObjectIDFromHex_ok_iff s).mp ⟨oid, hr⟩) h

theorem hexDecode_encode : ∀ (bs : List (Fin 256)),
    hexDecode (bs.flatMap encodeByte) = .ok bs
  | [] => by simp [hexDecode]
  | v :: vs => by
    have h1 := fromHexChar_hextable (v.val / 16) (by omega)
    have h2 := fromHexChar_hextable (v.val % 16) (by omega)
    have ih := hexDecode_encode vs
    have hv : Fin.ofNat (v.val / 16 * 16 + v.val % 16) = v := by
      apply Fin.ext
      have hlt := v.isLt
      simp only [Fin.ofNat]
      omega
    simp only [List.flatMap_cons, encodeByte, List.cons_append, List.nil_append]
    unfold hexDecode
    simp only [h1, h2, ih, hv]

theorem isHexChar_encode : ∀ (bs : List (Fin 256)), ∀ c ∈ bs.flatMap encodeByte, IsHexChar c := by
  intro bs c hc
  simp only [List.mem_flatMap, encodeByte, List.mem_cons, List.mem_singleton, List.not_mem_nil,
    or_false] at hc
  obtain ⟨v, _, rfl | rfl⟩ := hc
  · exact isHexChar_hextable _ (by omega)
  · exact isHexChar_hextable _ (by omega)

theorem length_encode : ∀ (bs : List (Fin 256)), (bs.flatMap encodeByte).length = 2 * bs.length
  | [] => rfl
  | v :: vs => by
    simp only [List.flatMap_cons, List.length_append, length_encode vs, encodeByte,
      List.length_cons, List.length_nil]
    omega

/-- The hex form of an identifier has 24 characters. -/
theorem Hex_length (oid : ObjectID) : oid.Hex.length = 24 := by
  simp only [ObjectID.Hex, String.length, length_encode, oid.size]

/-- The hex form of an identifier decodes back to the identifier. -/
theorem ObjectIDFromHex_Hex (oid : ObjectID) : ObjectIDFromHex oid.Hex = .ok oid := by
  have hall : ∀ c ∈ oid.Hex.data, IsHexChar c := isHexChar_encode oid.bytes
  have hsize : oid.Hex.utf8ByteSize = 24 := by
    rw [utf8ByteSize_of_hex _ hall, Hex_length]
  have hdec : hexDecode oid.Hex.data = .ok oid.bytes := hexDecode_encode oid.bytes
  unfold ObjectIDFromHex
  simp only [hsize, hdec, ne_eq, not_true_eq_false, if_false]
  rw [dif_pos oid.size]

/-! ## Facts about the collection -/

theorem find_none_of_absent (c : Collection) (oid : ObjectID) (h : ∀ d ∈ c, d.id ≠ oid) :
    c.find? (fun d => decide (d.id = oid)) = none := by
  rw [List.find?_eq_none]
  intro d hd
  simpa using h d hd

theorem find_append_cons (pre post : Collection) (d : Document) (oid : ObjectID)
    (hpre : ∀ x ∈ pre, x.id ≠ oid) (hd : d.id = oid) :
    (pre ++ d :: post).find? (fun x => decide (x.id = oid)) = some d := by
  induction pre with
  | nil => simp [List.find?, hd]
  | cons p ps ih =>
    have hp : p.id ≠ oid := hpre p (by simp)
    have hps : ∀ x ∈ ps, x.id ≠ oid := fun x hx => hpre x (by simp [hx])
    simp [List.find?, hp, ih hps]

theorem eraseP_absent (c : Collection) (oid : ObjectID) (h : ∀ d ∈ c, d.id ≠ oid) :
    c.eraseP (fun d => decide (d.id = oid)) = c := by
  apply List.eraseP_of_forall_not
  intro d hd
  simpa using h d hd

theorem eraseP_append_cons (pre post : Collection) (d : Document) (oid : ObjectID)
    (hpre : ∀ x ∈ pre, x.id ≠ oid) (hd : d.id = oid) :
    (pre ++ d :: post).eraseP (fun x => decide (x.id = oid)) = pre ++ post := by
  induction pre with
  | nil => simp [hd]
  | cons p ps ih =>
    have hp : p.id ≠ oid := hpre p (by simp)
    have hps : ∀ x ∈ ps, x.id ≠ oid := fun x hx => hpre x (by simp [hx])
    simp [List.eraseP_cons, hp, ih hps]

theorem replaceFirst_append_cons (pre post : Collection) (d new : Document) (oid : ObjectID)
    (hpre : ∀ x ∈ pre, x.id ≠ oid) (hd : d.id = oid) :
    replaceFirst oid new (pre ++ d :: post) = pre ++ new :: post := by
  induction pre with
  | nil => simp [replaceFirst, hd]
  | cons p ps ih =>
    have hp : p.id ≠ oid := hpre p (by simp)
    have hps : ∀ x ∈ ps, x.id ≠ oid := fun x hx => hpre x (by simp [hx])
    simp [replaceFirst, hp, ih hps]

theorem uniqueIds_split (pre post : Collection) (d : Document)
    (hu : UniqueIds (pre ++ d :: post)) :
    (∀ x ∈ pre, x.id ≠ d.id) ∧ (∀ x ∈ post, x.id ≠ d.id) := by
  unfold UniqueIds at hu
  rw [List.map_append, List.map_cons, List.nodup_append] at hu
  obtain ⟨_, h2, h3⟩ := hu
  rw [List.nodup_cons] at h2
  constructor
  · intro x hx heq
    exact h3 (List.mem_map_of_mem Document.id hx) (by rw [heq]; simp)
  · intro x hx heq
    exact h2.1 (by rw [← heq]; exact List.mem_map_of_mem Document.id hx)

theorem replaceFirst_ids (oid : ObjectID) (new : Document) (hnew : new.id = oid) :
    ∀ c : Collection, (replaceFirst oid new c).map Document.id = c.map Document.id
  | [] => rfl
  | d :: ds => by
    by_cases hd : d.id = oid
    · simp [replaceFirst, hd, hnew]
    · simp [replaceFirst, hd, replaceFirst_ids oid new hnew ds]

theorem uniqueIds_snoc (c : Collection) (d : Document) (hu : UniqueIds c)
    (hd : ∀ x ∈ c, x.id ≠ d.id) : UniqueIds (c ++ [d]) := by
  unfold UniqueIds at hu ⊢
  rw [List.map_append, List.nodup_append]
  refine ⟨hu, by simp, ?_⟩
  intro a ha hb
  simp only [List.map_cons, List.map_nil, List.mem_singleton] at hb
  subst hb
  obtain ⟨x, hx, hid⟩ := List.mem_map.mp ha
  exact hd x hx hid

theorem InsertOne_preserves_uniqueIds (fault : Option StoreFailure) (newID : ObjectID)
    (c : Collection) (data : blogItem) (hu : UniqueIds c) :
    UniqueIds (InsertOne fault newID c data).2 := by
  cases fault with
  | some f => exact hu
  | none =>
    simp only [InsertOne]
    by_cases hany : (c.any fun d =>
        decide (d.id = if data.ID = NilObjectID then newID else data.ID)) = true
    · rw [if_pos hany]
      exact hu
    · rw [if_neg hany]
      apply uniqueIds_snoc c _ hu
      intro x hx hid
      exact hany (List.any_eq_true.mpr ⟨x, hx, by simpa [Document.id] using hid⟩)

theorem ReplaceOne_preserves_uniqueIds (fault : Option StoreFailure) (c : Collection)
    (oid : ObjectID) (data : blogItem) (hu : UniqueIds c) :
    UniqueIds (ReplaceOne fault c oid data).2 := by
  cases fault with
  | some f => exact hu
  | none =>
    simp only [ReplaceOne]
    cases c.find? (fun d => decide (d.id = oid)) with
    | none => exact hu
    | some d =>
      simp only
      by_cases hcond : data.ID ≠ NilObjectID ∧ data.ID ≠ oid
      · rw [if_pos hcond]
        exact hu
      · rw [if_neg hcond]
        unfold UniqueIds at hu ⊢
        show ((replaceFirst oid
          (Document.blog ⟨oid, data.AuthorID, data.Content, data.Title⟩) c).map
            Document.id).Nodup
        rw [replaceFirst_ids oid (Document.blog ⟨oid, data.AuthorID, data.Content, data.Title⟩)
          rfl]
        exact hu

theorem DeleteOne_preserves_uniqueIds (fault : Option StoreFailure) (c : Collection)
    (oid : ObjectID) (hu : UniqueIds c) : UniqueIds (DeleteOne fault c oid).2 := by
  cases fault with
  | some f => exact hu
  | none =>
    unfold UniqueIds at hu ⊢
    exact hu.sublist ((List.eraseP_sublist c).map Document.id)

theorem CreateBlog_collection (f : Option StoreFailure) (newID : ObjectID) (c : Collection)
    (req : CreateBlogRequest) :
    (CreateBlog f newID c req).collection
      = (InsertOne f newID c
          ⟨NilObjectID, GetAuthorId req.blog, GetContent req.blog, GetTitle req.blog⟩).2 := by
  unfold CreateBlog
  simp only
  generalize InsertOne f newID c _ = x
  rcases x with ⟨r, c'⟩
  cases r with
  | error e => rfl
  | ok res =>
    rcases res with ⟨i⟩
    cases i <;> rfl

theorem UpdateBlog_preserves_uniqueIds (f g : Option StoreFailure) (c : Collection)
    (req : UpdateBlogRequest) (hu : UniqueIds c) :
    UniqueIds (UpdateBlog f g c req).collection := by
  unfold UpdateBlog
  simp only
  cases ObjectIDFromHex (GetId req.blog) with
  | error e => exact hu
  | ok oid =>
    simp only
    cases (FindOne f c oid).Decode with
    | error e => exact hu
    | ok found =>
      simp only
      have h := ReplaceOne_preserves_uniqueIds g c oid
        ⟨found.ID, GetAuthorId req.blog, GetContent req.blog, GetTitle req.blog⟩ hu
      revert h
      generalize ReplaceOne g c oid _ = x
      intro h
      rcases x with ⟨r, c'⟩
      cases r <;> exact h

theorem DeleteBlog_preserves_uniqueIds (f : Option StoreFailure) (c : Collection)
    (req : DeleteBlogRequest) (hu : UniqueIds c) :
    UniqueIds (DeleteBlog f c req).collection := by
  unfold DeleteBlog
  cases ObjectIDFromHex req.blogId with
  | error e => exact hu
  | ok oid =>
    simp only
    have h := DeleteOne_preserves_uniqueIds f c oid hu
    revert h
    generalize DeleteOne f c oid = x
    intro h
    rcases x with ⟨r, c'⟩
    cases r with
    | error e => exact h
    | ok res =>
      simp only
      split <;> exact h

theorem ListBlog_collection (cf : CursorFault) (c : Collection) (stream : ListBlogServer) :
    (ListBlog cf c stream).1.collection = c := by
  unfold ListBlog
  cases Find cf c with
  | error e => rfl
  | ok cur =>
    simp only
    generalize listLoop cur.docs stream = x
    rcases x with ⟨r, s'⟩
    cases r with
    | some code => rfl
    | none =>
      simp only
      cases cur.err <;> rfl

theorem ReadBlog_collection (f : Option StoreFailure) (c : Collection) (req : ReadBlogRequest) :
    (ReadBlog f c req).collection = c := by
  unfold ReadBlog
  simp only
  cases ObjectIDFromHex req.blogId with
  | error e => rfl
  | ok oid =>
    simp only
    cases (FindOne f c oid).Decode <;> rfl

/-- The primary-key invariant is kept by every handler, whatever the request and whatever
failures the store injects: the collections the service can reach from an empty one all
have unique identifiers. -/
theorem handlers_preserve_uniqueIds (c : Collection) (hu : UniqueIds c)
    (f g : Option StoreFailure) (cf : CursorFault) (newID : ObjectID)
    (create : CreateBlogRequest) (read : ReadBlogRequest) (update : UpdateBlogRequest)
    (delete : DeleteBlogRequest) (stream : ListBlogServer) :
    UniqueIds (CreateBlog f newID c create).collection ∧
    UniqueIds (ReadBlog f c read).collection ∧
    UniqueIds (UpdateBlog f g c update).collection ∧
    UniqueIds (DeleteBlog f c delete).collection ∧
    UniqueIds (ListBlog cf c stream).1.collection := by
  refine ⟨?_, ?_, UpdateBlog_preserves_uniqueIds f g c update hu,
    DeleteBlog_preserves_uniqueIds f c delete hu, ?_⟩
  · rw [CreateBlog_collection]
    exact InsertOne_preserves_uniqueIds f newID c _ hu
  · rw [ReadBlog_collection]
    exact hu
  · rw [ListBlog_collection]
    exact hu


/-! ## The handlers on an identifier that does not decode -/

theorem ReadBlog_of_decode_error (f : Option StoreFailure) (c : Collection) (s : String)
    (e : MongoErr) (h : ObjectIDFromHex s = .error e) :
    ReadBlog f c ⟨s⟩ = ⟨.error .InvalidArgument, c, []⟩ := by
  simp only [ReadBlog, h]

theorem UpdateBlog_of_decode_error (f g : Option StoreFailure) (c : Collection)
    (u : UpdateBlogRequest) (e : MongoErr) (h : ObjectIDFromHex (GetId u.blog) = .error e) :
    UpdateBlog f g c u = ⟨.error .InvalidArgument, c, []⟩ := by
  simp only [UpdateBlog, h]

theorem DeleteBlog_of_decode_error (f : Option StoreFailure) (c : Collection) (s : String)
    (e : MongoErr) (h : ObjectIDFromHex s = .error e) :
    DeleteBlog f c ⟨s⟩ = ⟨.error .InvalidArgument, c, []⟩ := by
  simp only [DeleteBlog, h]

/-- C1: for every identifier string that is not well-formed (length other than 24, or a
non-hexadecimal character), every collection and whatever failures the store might
inject, `ReadBlog`, `UpdateBlog` and `DeleteBlog` each return `InvalidArgument`, issue no
call to the collection, and leave the collection as it was. -/
theorem malformed_id_rejected_before_store (s : String) (hs : ¬ WellFormedId s)
    (collection : Collection) (f g : Option StoreFailure) (u : UpdateBlogRequest)
    (hu : GetId u.blog = s) :
    ReadBlog f collection ⟨s⟩ = ⟨.error .InvalidArgument, collection, []⟩ ∧
    UpdateBlog f g collection u = ⟨.error .InvalidArgument, collection, []⟩ ∧
    DeleteBlog f collection ⟨s⟩ = ⟨.error .InvalidArgument, collection, []⟩ := by
  obtain ⟨e, he⟩ := ObjectIDFromHex_error_of_malformed s hs
  refine ⟨ReadBlog_of_decode_error f collection s e he, ?_,
    DeleteBlog_of_decode_error f collection s e he⟩
  exact UpdateBlog_of_decode_error f g collection u e (by rw [hu]; exact he)

/-- C1 at a 24-character string with a non-hexadecimal character, on a non-empty
collection and with store failures pending. -/
theorem malformed_id_rejected_before_store_witness :
    ¬ WellFormedId "5f00000000000000000000zz" ∧
    (ReadBlog (some .timeout) sampleCollection ⟨"5f00000000000000000000zz"⟩
        = ⟨.error .InvalidArgument, sampleCollection, []⟩ ∧
     UpdateBlog (some .timeout) none sampleCollection
        ⟨some ⟨"5f00000000000000000000zz", "a1", "C", "T"⟩⟩
        = ⟨.error .InvalidArgument, sampleCollection, []⟩ ∧
     DeleteBlog (some .timeout) sampleCollection ⟨"5f00000000000000000000zz"⟩
        = ⟨.error .InvalidArgument, sampleCollection, []⟩) :=
  ⟨by decide,
   malformed_id_rejected_before_store "5f00000000000000000000zz" (by decide) sampleCollection
     (some .timeout) none ⟨some ⟨"5f00000000000000000000zz", "a1", "C", "T"⟩⟩ rfl⟩

/-! ## The handlers on an identifier that matches nothing -/

theorem FindOne_absent (f : Option StoreFailure) (c : Collection) (oid : ObjectID)
    (h : ∀ d ∈ c, d.id ≠ oid) : ∃ e, (FindOne f c oid).Decode = .error e := by
  cases f with
  | some x => exact ⟨.store x, rfl⟩
  | none =>
    refine ⟨.noDocuments, ?_⟩
    simp only [FindOne, find_none_of_absent c oid h, SingleResult.Decode]

theorem FindOne_present (pre post : Collection) (d : Document) (oid : ObjectID)
    (hpre : ∀ x ∈ pre, x.id ≠ oid) (hd : d.id = oid) :
    (FindOne none (pre ++ d :: post) oid).Decode = d.Decode := by
  simp only [FindOne, find_append_cons pre post d oid hpre hd, SingleResult.Decode]

theorem DeleteOne_absent (c : Collection) (oid : ObjectID) (h : ∀ d ∈ c, d.id ≠ oid) :
    DeleteOne none c oid = (.ok ⟨0⟩, c) := by
  simp only [DeleteOne, eraseP_absent c oid h, Nat.sub_self]

theorem DeleteOne_present (pre post : Collection) (d : Document) (oid : ObjectID)
    (hpre : ∀ x ∈ pre, x.id ≠ oid) (hd : d.id = oid) :
    DeleteOne none (pre ++ d :: post) oid = (.ok ⟨1⟩, pre ++ post) := by
  have hlen : pre.length + (post.length + 1) - (pre.length + post.length) = 1 := by omega
  simp only [DeleteOne, eraseP_append_cons pre post d oid hpre hd, List.length_append,
    List.length_cons, hlen]

/-- C2: for every well-formed identifier string whose decoded identifier matches no
document of the collection, `ReadBlog` and `UpdateBlog` (whatever failure the store
injects into their lookup) and `DeleteBlog` (its delete call not failing) each return
`NotFound` and leave the collection unchanged; in particular `UpdateBlog` creates no
record. -/
theorem unknown_id_not_found (s : String) (hs : WellFormedId s) (collection : Collection)
    (hno : ∀ oid, ObjectIDFromHex s = .ok oid → ∀ d ∈ collection, d.id ≠ oid)
    (f g : Option StoreFailure) (u : UpdateBlogRequest) (hu : GetId u.blog = s) :
    ((ReadBlog f collection ⟨s⟩).result = .error .NotFound ∧
      (ReadBlog f collection ⟨s⟩).collection = collection) ∧
    ((UpdateBlog f g collection u).result = .error .NotFound ∧
      (UpdateBlog f g collection u).collection = collection) ∧
    ((DeleteBlog none collection ⟨s⟩).result = .error .NotFound ∧
      (DeleteBlog none collection ⟨s⟩).collection = collection) := by
  obtain ⟨oid, hoid⟩ := (ObjectIDFromHex_ok_iff s).mpr hs
  have habs := hno oid hoid
  obtain ⟨e, he⟩ := FindOne_absent f collection oid habs
  refine ⟨?_, ?_, ?_⟩
  · simp only [ReadBlog, hoid, he, and_self]
  · simp only [UpdateBlog, hu, hoid, he, and_self]
  · simp only [DeleteBlog, hoid, DeleteOne_absent collection oid habs, if_true, and_self]

/-- C2 at the hex form of an identifier that is not in the sample collection. -/
theorem unknown_id_not_found_witness :
    WellFormedId "5f00000000000000000000ff" ∧
    (∀ oid, ObjectIDFromHex "5f00000000000000000000ff" = .ok oid →
      ∀ d ∈ sampleCollection, d.id ≠ oid) ∧
    (((ReadBlog none sampleCollection ⟨"5f00000000000000000000ff"⟩).result = .error .NotFound ∧
      (ReadBlog none sampleCollection ⟨"5f00000000000000000000ff"⟩).collection
        = sampleCollection) ∧
     ((UpdateBlog none none sampleCollection
        ⟨some ⟨"5f00000000000000000000ff", "a1", "C", "T"⟩⟩).result = .error .NotFound ∧
      (UpdateBlog none none sampleCollection
        ⟨some ⟨"5f00000000000000000000ff", "a1", "C", "T"⟩⟩).collection = sampleCollection) ∧
     ((DeleteBlog none sampleCollection ⟨"5f00000000000000000000ff"⟩).result
        = .error .NotFound ∧
      (DeleteBlog none sampleCollection ⟨"5f00000000000000000000ff"⟩).collection
        = sampleCollection)) :=
  have hno : ∀ oid, ObjectIDFromHex "5f00000000000000000000ff" = .ok oid →
      ∀ d ∈ sampleCollection, d.id ≠ oid := by
    intro oid h
    have h2 : oid = sampleId 255 := by
      have h3 : ObjectIDFromHex "5f00000000000000000000ff" = .ok (sampleId 255) := by decide
      rw [h3] at h
      cases h
      rfl
    subst h2
    decide
  ⟨by decide, hno,
   unknown_id_not_found "5f00000000000000000000ff" (by decide) sampleCollection hno none none
     ⟨some ⟨"5f00000000000000000000ff", "a1", "C", "T"⟩⟩ rfl⟩

/-! ## Create followed by Read -/

/-- What a successful `CreateBlog` has done: the store was not failing, the generated
identifier was new to the collection, the record was appended under that identifier and
the response echoes the request with the identifier in hex. -/
theorem CreateBlog_ok_inv (fault : Option StoreFailure) (newID : ObjectID) (c : Collection)
    (req : CreateBlogRequest) (resp : CreateBlogResponse)
    (h : (CreateBlog fault newID c req).result = .ok resp) :
    (∀ d ∈ c, d.id ≠ newID) ∧
    (CreateBlog fault newID c req).collection
      = c ++ [.blog ⟨newID, GetAuthorId req.blog, GetContent req.blog, GetTitle req.blog⟩] ∧
    resp = ⟨⟨newID.Hex, GetAuthorId req.blog, GetContent req.blog, GetTitle req.blog⟩⟩ := by
  cases fault with
  | some f => simp [CreateBlog, InsertOne] at h
  | none =>
    by_cases hany : c.any (fun d => decide (d.id = newID)) = true
    · simp [CreateBlog, InsertOne, hany] at h
    · have hall : ∀ d ∈ c, d.id ≠ newID := by
        intro d hd heq
        exact hany (List.any_eq_true.mpr ⟨d, hd, by simpa using heq⟩)
      simp only [CreateBlog, InsertOne, if_true, hany, Bool.false_eq_true, if_false,
        Except.ok.injEq] at h ⊢
      exact ⟨hall, trivial, h.symm⟩

/-- When the insert of the record `CreateBlog` builds succeeds, the handler returns a post:
the request's fields with the generated identifier in hex. -/
theorem CreateBlog_of_insert_ok (fault : Option StoreFailure) (newID : ObjectID)
    (c : Collection) (req : CreateBlogRequest) (inserted : InsertOneResult)
    (h : (InsertOne fault newID c
        ⟨NilObjectID, GetAuthorId req.blog, GetContent req.blog, GetTitle req.blog⟩).1
      = .ok inserted) :
    (CreateBlog fault newID c req).result
      = .ok ⟨⟨newID.Hex, GetAuthorId req.blog, GetContent req.blog, GetTitle req.blog⟩⟩ := by
  cases fault with
  | some f => simp [InsertOne] at h
  | none =>
    by_cases hany : c.any (fun d => decide (d.id = newID)) = true
    · simp [InsertOne, hany] at h
    · simp only [CreateBlog, InsertOne, if_true, hany, Bool.false_eq_true, if_false]

/-- C3: for every request (authorId, title, content), generated identifier and collection
for which the insert succeeds, `CreateBlog` returns a post; that post has a non-empty id
and carries the request's authorId, title and content; and `ReadBlog` of the returned id
on the resulting collection (its lookup not failing) succeeds and returns exactly the post
`CreateBlog` returned. -/
theorem create_then_read (fault : Option StoreFailure) (newID : ObjectID)
    (collection : Collection) (req : CreateBlogRequest) (inserted : InsertOneResult)
    (h : (InsertOne fault newID collection
        ⟨NilObjectID, GetAuthorId req.blog, GetContent req.blog, GetTitle req.blog⟩).1
      = .ok inserted) :
    ∃ resp,
      (CreateBlog fault newID collection req).result = .ok resp ∧
      resp.blog.Id ≠ "" ∧
      resp.blog.AuthorId = GetAuthorId req.blog ∧
      resp.blog.Title = GetTitle req.blog ∧
      resp.blog.Content = GetContent req.blog ∧
      (ReadBlog none (CreateBlog fault newID collection req).collection ⟨resp.blog.Id⟩).result
        = .ok ⟨resp.blog⟩ := by
  have hok := CreateBlog_of_insert_ok fault newID collection req inserted h
  obtain ⟨hnew, hcoll, _⟩ := CreateBlog_ok_inv fault newID collection req _ hok
  refine ⟨_, hok, ?_, rfl, rfl, rfl, ?_⟩
  · intro hempty
    have hlen := Hex_length newID
    simp only at hempty
    rw [hempty] at hlen
    simp at hlen
  · rw [hcoll]
    have hfind := FindOne_present collection []
      (.blog ⟨newID, GetAuthorId req.blog, GetContent req.blog, GetTitle req.blog⟩) newID
      hnew rfl
    simp only [ReadBlog, ObjectIDFromHex_Hex, hfind, Document.Decode, dataToBlog]

/-- C3 at the scenario of the specification: a1 / T / C created in the sample collection. -/
theorem create_then_read_witness :
    (InsertOne none (sampleId 9) sampleCollection ⟨NilObjectID, "a1", "C", "T"⟩).1
      = .ok ⟨.objectID (sampleId 9)⟩ ∧
    ∃ resp,
      (CreateBlog none (sampleId 9) sampleCollection ⟨some ⟨"", "a1", "C", "T"⟩⟩).result
        = .ok resp ∧
      resp.blog.Id ≠ "" ∧
      resp.blog.AuthorId = "a1" ∧
      resp.blog.Title = "T" ∧
      resp.blog.Content = "C" ∧
      (ReadBlog none
        (CreateBlog none (sampleId 9) sampleCollection ⟨some ⟨"", "a1", "C", "T"⟩⟩).collection
        ⟨resp.blog.Id⟩).result = .ok ⟨resp.blog⟩ :=
  ⟨by decide,
   create_then_read none (sampleId 9) sampleCollection ⟨some ⟨"", "a1", "C", "T"⟩⟩
     ⟨.objectID (sampleId 9)⟩ (by decide)⟩

/-! ## Delete -/

/-- C5: in a collection with unique identifiers that contains a document with identifier
`X`, `DeleteBlog` (the store not failing) called with the hex form of `X` succeeds, returns
a confirmation carrying that string, and removes exactly that document; the same call on
the resulting collection returns `NotFound`. -/
theorem delete_twice (pre post : Collection) (d : Document) (X : ObjectID)
    (hd : d.id = X) (hu : UniqueIds (pre ++ d :: post)) :
    DeleteBlog none (pre ++ d :: post) ⟨X.Hex⟩
      = ⟨.ok ⟨X.Hex⟩, pre ++ post, [.DeleteOne X]⟩ ∧
    (DeleteBlog none (DeleteBlog none (pre ++ d :: post) ⟨X.Hex⟩).collection ⟨X.Hex⟩).result
      = .error .NotFound := by
  subst hd
  obtain ⟨hpre, hpost⟩ := uniqueIds_split pre post d hu
  have hfirst : DeleteBlog none (pre ++ d :: post) ⟨d.id.Hex⟩
      = ⟨.ok ⟨d.id.Hex⟩, pre ++ post, [.DeleteOne d.id]⟩ := by
    simp only [DeleteBlog, ObjectIDFromHex_Hex, DeleteOne_present pre post d d.id hpre rfl,
      Nat.one_ne_zero, if_false]
  refine ⟨hfirst, ?_⟩
  rw [hfirst]
  have habs : ∀ x ∈ pre ++ post, x.id ≠ d.id := by
    intro x hx
    rcases List.mem_append.mp hx with hx | hx
    · exact hpre x hx
    · exact hpost x hx
  simp only [DeleteBlog, ObjectIDFromHex_Hex, DeleteOne_absent (pre ++ post) d.id habs, if_true]

/-- C5 at the middle document of the sample collection. -/
theorem delete_twice_witness :
    UniqueIds sampleCollection ∧
    DeleteBlog none sampleCollection ⟨"5f0000000000000000000002"⟩
      = ⟨.ok ⟨"5f0000000000000000000002"⟩, [.blog (sampleItem 1), .blog (sampleItem 3)],
          [.DeleteOne (sampleId 2)]⟩ ∧
    (DeleteBlog none
      (DeleteBlog none sampleCollection ⟨"5f0000000000000000000002"⟩).collection
      ⟨"5f0000000000000000000002"⟩).result = .error .NotFound :=
  ⟨by decide,
   delete_twice [.blog (sampleItem 1)] [.blog (sampleItem 3)] (.foreign (sampleId 2))
     (sampleId 2) rfl (by decide)⟩

/-! ## Update -/

theorem ReplaceOne_present (pre post : Collection) (d : Document) (data : blogItem)
    (hpre : ∀ x ∈ pre, x.id ≠ data.ID) (hd : d.id = data.ID) :
    ReplaceOne none (pre ++ d :: post) data.ID data
      = (.ok ⟨1⟩, pre ++ .blog data :: post) := by
  simp only [ReplaceOne, find_append_cons pre post d data.ID hpre hd, ne_eq,
    not_true_eq_false, and_false, if_false,
    replaceFirst_append_cons pre post d _ data.ID hpre hd]

theorem UpdateBlog_present (pre post : Collection) (item : blogItem) (req : UpdateBlogRequest)
    (hid : ObjectIDFromHex (GetId req.blog) = .ok item.ID)
    (hpre : ∀ x ∈ pre, x.id ≠ item.ID) :
    UpdateBlog none none (pre ++ .blog item :: post) req
      = ⟨.ok ⟨dataToBlog (updated item req)⟩, pre ++ .blog (updated item req) :: post,
          [.FindOne item.ID, .ReplaceOne item.ID (updated item req)]⟩ := by
  have hfind := FindOne_present pre post (.blog item) item.ID hpre rfl
  have hrep := ReplaceOne_present pre post (.blog item) (updated item req) hpre rfl
  simp only [updated] at hrep
  simp only [UpdateBlog, hid, hfind, Document.Decode, hrep, updated]

/-- C9: in a collection with unique identifiers, an update request whose id decodes to the
identifier of a stored blog record (the store not failing) replaces that record, in
place, by the record with the same identifier and the request's authorId, content and
title; every other document keeps its value and position; the response is the wire form
of the new record, its id being the hex encoding of the stored identifier. -/
theorem update_overwrites_in_place (pre post : Collection) (item : blogItem)
    (req : UpdateBlogRequest) (hid : ObjectIDFromHex (GetId req.blog) = .ok item.ID)
    (hu : UniqueIds (pre ++ .blog item :: post)) :
    (UpdateBlog none none (pre ++ .blog item :: post) req).result
      = .ok ⟨⟨item.ID.Hex, GetAuthorId req.blog, GetContent req.blog, GetTitle req.blog⟩⟩ ∧
    (UpdateBlog none none (pre ++ .blog item :: post) req).collection
      = pre ++ .blog ⟨item.ID, GetAuthorId req.blog, GetContent req.blog, GetTitle req.blog⟩
          :: post := by
  have hpre := (uniqueIds_split pre post (.blog item) hu).1
  rw [UpdateBlog_present pre post item req hid hpre]
  exact ⟨rfl, rfl⟩

/-- C9 at the last record of the sample collection, addressed in upper-case hex. -/
theorem update_overwrites_in_place_witness :
    ObjectIDFromHex "5F0000000000000000000003" = .ok (sampleId 3) ∧
    UniqueIds sampleCollection ∧
    (UpdateBlog none none sampleCollection
        ⟨some ⟨"5F0000000000000000000003", "a2", "C2", "T2"⟩⟩).result
      = .ok ⟨⟨"5f0000000000000000000003", "a2", "C2", "T2"⟩⟩ ∧
    (UpdateBlog none none sampleCollection
        ⟨some ⟨"5F0000000000000000000003", "a2", "C2", "T2"⟩⟩).collection
      = [.blog (sampleItem 1), .foreign (sampleId 2), .blog ⟨sampleId 3, "a2", "C2", "T2"⟩] :=
  ⟨by decide, by decide,
   update_overwrites_in_place [.blog (sampleItem 1), .foreign (sampleId 2)] [] (sampleItem 3)
     ⟨some ⟨"5F0000000000000000000003", "a2", "C2", "T2"⟩⟩ (by decide) (by decide)⟩

/-- C6: in a collection with unique identifiers, for an update request whose id decodes to
the identifier of a stored blog record (the store not failing), applying the request
twice in succession succeeds both times with the same response, and the collection after
the second application equals the collection after the first. -/
theorem update_idempotent (collection : Collection) (req : UpdateBlogRequest)
    (item : blogItem) (hid : ObjectIDFromHex (GetId req.blog) = .ok item.ID)
    (hmem : Document.blog item ∈ collection) (hu : UniqueIds collection) :
    ∃ resp,
      (UpdateBlog none none collection req).result = .ok resp ∧
      (UpdateBlog none none (UpdateBlog none none collection req).collection req).result
        = .ok resp ∧
      (UpdateBlog none none (UpdateBlog none none collection req).collection req).collection
        = (UpdateBlog none none collection req).collection := by
  obtain ⟨pre, post, rfl⟩ := List.append_of_mem hmem
  have hpre := (uniqueIds_split pre post (.blog item) hu).1
  have h1 := UpdateBlog_present pre post item req hid hpre
  have h2 := UpdateBlog_present pre post (updated item req) req hid hpre
  refine ⟨⟨dataToBlog (updated item req)⟩, ?_, ?_, ?_⟩
  · rw [h1]
  · rw [h1]
    simp only
    rw [h2]
    rfl
  · rw [h1]
    simp only
    rw [h2]
    rfl

/-- C6 at the first record of the sample collection. -/
theorem update_idempotent_witness :
    ObjectIDFromHex "5f0000000000000000000001" = .ok (sampleItem 1).ID ∧
    Document.blog (sampleItem 1) ∈ sampleCollection ∧
    UniqueIds sampleCollection ∧
    ∃ resp,
      (UpdateBlog none none sampleCollection
        ⟨some ⟨"5f0000000000000000000001", "a2", "C2", "T2"⟩⟩).result = .ok resp ∧
      (UpdateBlog none none (UpdateBlog none none sampleCollection
          ⟨some ⟨"5f0000000000000000000001", "a2", "C2", "T2"⟩⟩).collection
        ⟨some ⟨"5f0000000000000000000001", "a2", "C2", "T2"⟩⟩).result = .ok resp ∧
      (UpdateBlog none none (UpdateBlog none none sampleCollection
          ⟨some ⟨"5f0000000000000000000001", "a2", "C2", "T2"⟩⟩).collection
        ⟨some ⟨"5f0000000000000000000001", "a2", "C2", "T2"⟩⟩).collection
        = (UpdateBlog none none sampleCollection
          ⟨some ⟨"5f0000000000000000000001", "a2", "C2", "T2"⟩⟩).collection :=
  ⟨by decide, by decide, by decide,
   update_idempotent sampleCollection ⟨some ⟨"5f0000000000000000000001", "a2", "C2", "T2"⟩⟩
     (sampleItem 1) (by decide) (by decide) (by decide)⟩

/-! ## List -/

theorem Send_calls (s : ListBlogServer) (m : ListBlogResponse) :
    (s.Send m).2.calls = s.calls ++ [m] := by
  unfold ListBlogServer.Send
  split <;> rfl

theorem sendAll_calls : ∀ (items : List blogItem) (s : ListBlogServer),
    (sendAll items s).calls = s.calls ++ items.map wire
  | [], s => by simp [sendAll]
  | i :: is, s => by
    simp only [sendAll, sendAll_calls is, Send_calls, List.map_cons, List.append_assoc,
      List.singleton_append]

theorem sendAll_healthy : ∀ (items : List blogItem) (calls sent : List ListBlogResponse),
    sendAll items ⟨calls, sent, none⟩
      = ⟨calls ++ items.map wire, sent ++ items.map wire, none⟩
  | [], calls, sent => by simp [sendAll]
  | i :: is, calls, sent => by
    simp only [sendAll, ListBlogServer.Send, sendAll_healthy is, List.map_cons,
      List.append_assoc, List.singleton_append]

theorem sendAll_closed : ∀ (items : List blogItem) (calls sent : List ListBlogResponse),
    sendAll items ⟨calls, sent, some 0⟩ = ⟨calls ++ items.map wire, sent, some 0⟩
  | [], calls, sent => by simp [sendAll]
  | i :: is, calls, sent => by
    simp only [sendAll, ListBlogServer.Send, sendAll_closed is, List.map_cons,
      List.append_assoc, List.singleton_append]

theorem listLoop_blogs : ∀ (items : List blogItem) (rest : List Document)
    (s : ListBlogServer),
    listLoop (items.map Document.blog ++ rest) s = listLoop rest (sendAll items s)
  | [], rest, s => by simp [sendAll]
  | i :: is, rest, s => by
    have ih := listLoop_blogs is rest (s.Send (wire i)).2
    show listLoop (Document.blog i :: (is.map Document.blog ++ rest)) s = _
    simp only [listLoop, Document.Decode, sendAll]
    exact ih

theorem listLoop_all_blogs (items : List blogItem) (s : ListBlogServer) :
    listLoop (items.map Document.blog) s = (none, sendAll items s) := by
  have h := listLoop_blogs items [] s
  simpa [listLoop] using h

theorem ListBlog_all_blogs (items : List blogItem) (s : ListBlogServer) :
    ListBlog .none (items.map Document.blog) s
      = (⟨.ok (), items.map Document.blog, [.Find]⟩, sendAll items s) := by
  simp only [ListBlog, Find, listLoop_all_blogs]

/-- C7: on a collection all of whose documents are blog records, the cursor not failing,
`ListBlog` returns without error after calling `Send` exactly once per record, in cursor
order, each time with the wire form (`dataToBlog`) of that record; on a stream whose
writes do not fail exactly these messages are delivered; on an empty collection nothing
is sent and the call returns without error. -/
theorem list_streams_every_record (items : List blogItem) (stream : ListBlogServer)
    (calls sent : List ListBlogResponse) :
    (ListBlog .none (items.map Document.blog) stream).1
      = ⟨.ok (), items.map Document.blog, [.Find]⟩ ∧
    (ListBlog .none (items.map Document.blog) stream).2.calls
      = stream.calls ++ items.map (fun data => ⟨dataToBlog data⟩) ∧
    (ListBlog .none (items.map Document.blog) ⟨calls, sent, none⟩).2.sent
      = sent ++ items.map (fun data => ⟨dataToBlog data⟩) ∧
    ListBlog .none [] stream = (⟨.ok (), [], [.Find]⟩, stream) := by
  refine ⟨?_, ?_, ?_, ?_⟩
  · rw [ListBlog_all_blogs]
  · rw [ListBlog_all_blogs, sendAll_calls]
    rfl
  · rw [ListBlog_all_blogs, sendAll_healthy]
    rfl
  · exact ListBlog_all_blogs [] stream

/-- C10: when the cursor yields `k - 1` blog records and then a document whose decoding
fails, `ListBlog` returns `Internal`; `Send` has been called exactly with the wire forms
of those `k - 1` records, in order (and on a stream whose writes do not fail exactly these
are delivered): nothing is sent for the failing document or for any later one. -/
theorem list_stops_at_decode_failure (fault : CursorFault) (collection : Collection)
    (cur : Cursor) (hfind : Find fault collection = .ok cur)
    (items : List blogItem) (d : Document) (rest : List Document) (e : MongoErr)
    (hd : d.Decode = .error e) (hdocs : cur.docs = items.map Document.blog ++ d :: rest)
    (stream : ListBlogServer) (calls sent : List ListBlogResponse) :
    (ListBlog fault collection stream).1.result = .error .Internal ∧
    (ListBlog fault collection stream).2.calls
      = stream.calls ++ items.map (fun data => ⟨dataToBlog data⟩) ∧
    (ListBlog fault collection ⟨calls, sent, none⟩).2.sent
      = sent ++ items.map (fun data => ⟨dataToBlog data⟩) := by
  have hloop : ∀ s, listLoop cur.docs s = (some .Internal, sendAll items s) := by
    intro s
    rw [hdocs, listLoop_blogs]
    simp only [listLoop, hd]
  refine ⟨?_, ?_, ?_⟩
  · simp only [ListBlog, hfind, hloop]
  · simp only [ListBlog, hfind, hloop, sendAll_calls]
    rfl
  · simp only [ListBlog, hfind, hloop, sendAll_healthy]
    rfl

/-- C10 at the sample collection, whose second document does not decode. -/
theorem list_stops_at_decode_failure_witness :
    Find .none sampleCollection = .ok ⟨sampleCollection, none⟩ ∧
    (Document.foreign (sampleId 2)).Decode = .error .decode ∧
    (ListBlog .none sampleCollection ⟨[], [], some 5⟩).1.result = .error .Internal ∧
    (ListBlog .none sampleCollection ⟨[], [], some 5⟩).2.calls
      = [] ++ [sampleItem 1].map (fun data => ⟨dataToBlog data⟩) ∧
    (ListBlog .none sampleCollection ⟨[], [], none⟩).2.sent
      = [] ++ [sampleItem 1].map (fun data => ⟨dataToBlog data⟩) :=
  ⟨rfl, rfl,
   list_stops_at_decode_failure .none sampleCollection ⟨sampleCollection, none⟩ rfl
     [sampleItem 1] (.foreign (sampleId 2)) [.blog (sampleItem 3)] .decode rfl rfl
     ⟨[], [], some 5⟩ [] []⟩

/-! ## Where the handlers depart from the specification -/

theorem listLoop_code : ∀ (docs : List Document) (s : ListBlogServer) (code : Code),
    (listLoop docs s).1 = some code → code = .Internal
  | [], s, code, h => by simp [listLoop] at h
  | d :: ds, s, code, h => by
    cases d with
    | foreign id =>
      simp only [listLoop, Document.Decode, Option.some.injEq] at h
      exact h.symm
    | blog item =>
      simp only [listLoop, Document.Decode] at h
      exact listLoop_code ds _ code h

theorem ListBlog_iteration_failure (n : Nat) (f : StoreFailure) (c : Collection)
    (stream : ListBlogServer) :
    (ListBlog (.iteration n f) c stream).1.result = .error .Internal := by
  simp only [ListBlog, Find]
  cases hloop : listLoop (List.take n c) stream with
  | mk r s =>
    cases r with
    | none => rfl
    | some code =>
      have hcode := listLoop_code (List.take n c) stream code (by rw [hloop])
      subst hcode
      rfl

/-- The status each handler reports for a store-level failure `f` of its store call:
`CreateBlog`, `DeleteBlog`, `ListBlog` (failure of the query or of the cursor) and
`UpdateBlog` (failure of its replace) return `Internal`, but makes `ReadBlog` and
`UpdateBlog` (failure of its lookup) return `NotFound`, whether or not the collection
holds a record with the requested identifier. -/
theorem store_failure_status (f : StoreFailure) (g : Option StoreFailure) (newID : ObjectID)
    (collection : Collection) (create : CreateBlogRequest) (oid : ObjectID)
    (authorId content title : String) (stream : ListBlogServer) (n : Nat) (item : blogItem) :
    (CreateBlog (some f) newID collection create).result = .error .Internal ∧
    (DeleteBlog (some f) collection ⟨oid.Hex⟩).result = .error .Internal ∧
    (ListBlog (.query f) collection stream).1.result = .error .Internal ∧
    (ListBlog (.iteration n f) collection stream).1.result = .error .Internal ∧
    (UpdateBlog none (some f) (.blog item :: collection)
        ⟨some ⟨item.ID.Hex, authorId, content, title⟩⟩).result = .error .Internal ∧
    (ReadBlog (some f) collection ⟨oid.Hex⟩).result = .error .NotFound ∧
    (UpdateBlog (some f) g collection ⟨some ⟨oid.Hex, authorId, content, title⟩⟩).result
      = .error .NotFound := by
  refine ⟨?_, ?_, ?_, ListBlog_iteration_failure n f collection stream, ?_, ?_, ?_⟩
  · simp only [CreateBlog, InsertOne]
  · simp only [DeleteBlog, ObjectIDFromHex_Hex, DeleteOne]
  · simp only [ListBlog, Find]
  · have hfind := FindOne_present [] collection (.blog item) item.ID (by simp) rfl
    simp only [List.nil_append] at hfind
    simp only [UpdateBlog, GetId, ObjectIDFromHex_Hex, hfind, Document.Decode, ReplaceOne]
  · simp only [ReadBlog, ObjectIDFromHex_Hex, FindOne, SingleResult.Decode]
  · simp only [UpdateBlog, GetId, ObjectIDFromHex_Hex, FindOne, SingleResult.Decode]

/-- C4, evaluated where the code departs from it: the sample collection holds the record
`5f…01`, the lookup fails with a connection error, and `ReadBlog` and `UpdateBlog` answer
`NotFound`, not `Internal`, having issued the lookup and nothing else. -/
theorem lookup_failure_reported_as_NotFound :
    ReadBlog (some .connection) sampleCollection ⟨"5f0000000000000000000001"⟩
      = ⟨.error .NotFound, sampleCollection, [.FindOne (sampleId 1)]⟩ ∧
    UpdateBlog (some .connection) none sampleCollection
        ⟨some ⟨"5f0000000000000000000001", "a2", "C2", "T2"⟩⟩
      = ⟨.error .NotFound, sampleCollection, [.FindOne (sampleId 1)]⟩ :=
  ⟨rfl, rfl⟩

/-- C8, evaluated where the code departs from it: two records, a stream that accepts one
write and then fails.  The second `Send` fails, yet `ListBlog` returns without error, one
of the two messages having been delivered. -/
theorem failed_write_reported_as_success :
    (ListBlogServer.Send ⟨[wire (sampleItem 1)], [wire (sampleItem 1)], some 0⟩
        (wire (sampleItem 3))).1 = some .closed ∧
    ListBlog .none [.blog (sampleItem 1), .blog (sampleItem 3)] ⟨[], [], some 1⟩
      = (⟨.ok (), [.blog (sampleItem 1), .blog (sampleItem 3)], [.Find]⟩,
         ⟨[wire (sampleItem 1), wire (sampleItem 3)], [wire (sampleItem 1)], some 0⟩) :=
  ⟨rfl, rfl⟩

/-- On a stream that accepts no more writes the first `Send` fails, yet `ListBlog` goes on
to call `Send` for every remaining record and returns without error, nothing having been
delivered. -/
theorem list_ignores_failed_write (first : blogItem) (others : List blogItem)
    (calls sent : List ListBlogResponse) :
    (ListBlogServer.Send ⟨calls, sent, some 0⟩ ⟨dataToBlog first⟩).1 = some .closed ∧
    ListBlog .none ((first :: others).map Document.blog) ⟨calls, sent, some 0⟩
      = (⟨.ok (), (first :: others).map Document.blog, [.Find]⟩,
         ⟨calls ++ (first :: others).map (fun data => ⟨dataToBlog data⟩), sent, some 0⟩) := by
  refine ⟨rfl, ?_⟩
  rw [ListBlog_all_blogs, sendAll_closed]
  rfl

end BlogServer
